import Mathlib

/-!
Verification of the Peloton `StatsAggregator`
(`src/statistics/stats_aggregator.cpp`).

The development shallowly embeds the aggregation core: the registry of
per-worker `BackendStatsContext` objects (`RegisterContext` /
`UnregisterContext`), the retired-history accumulator (`stats_history_`),
the per-cycle merge and throughput computation (`Aggregate`), the
scheduler loop (`RunAggregator`), and shutdown (`ShutdownAggregator`).
Counters are modelled over `Int` (they are `int64_t` in the source) and
the floating-point throughput arithmetic over `Rat`.
-/

namespace Peloton

/-- The counter bundle of one `BackendStatsContext` (an opaque external
collaborator of the aggregator): the per-database transaction counters
that the aggregator reads and merges.  `txnCommitted` stands for the sum
over `database_metrics_` of `GetTxnCommitted().GetCounter()`, and
`txnAborted` likewise for the aborted counter. -/
@[ext]
structure StatsCtx where
  txnCommitted : Int
  txnAborted : Int
  deriving Repr, DecidableEq

/-- The zero counter bundle: a freshly constructed context. -/
def StatsCtx.zero : StatsCtx := ⟨0, 0⟩

/-- Merge of one context into another, `BackendStatsContext::Aggregate`:
the counters add componentwise. -/
def StatsCtx.aggr (a b : StatsCtx) : StatsCtx :=
  ⟨a.txnCommitted + b.txnCommitted, a.txnAborted + b.txnAborted⟩

/-- Total counter mass of one context (sum of all its counters). -/
def StatsCtx.total (c : StatsCtx) : Int :=
  c.txnCommitted + c.txnAborted

/-- Worker identity (`std::thread::id`), modelled abstractly as `Nat`. -/
abbrev Tid := Nat

/-- The registry part of `StatsAggregator`: `backend_stats_` (the map from
thread id to `BackendStatsContext*`, modelled as an association list),
`stats_history_` (the retired-history accumulator) and `thread_number_`. -/
structure AggState where
  backendStats : List (Tid × StatsCtx)
  statsHistory : StatsCtx
  threadNumber : Int
  deriving Repr, DecidableEq

/-- The initial state built by the `StatsAggregator` constructor:
empty registry, zeroed history (`stats_history_(0, false)`), zero
`thread_number_`. -/
def AggState.init : AggState :=
  ⟨[], StatsCtx.zero, 0⟩

/-- Lookup in the registry map, `backend_stats_.find(id)`: the first
association with the given key. -/
def lookupCtx (id : Tid) : List (Tid × StatsCtx) → Option StatsCtx
  | [] => none
  | (i, c) :: rest => if i = id then some c else lookupCtx id rest

/-- Removal from the registry map, `backend_stats_.erase(id)`: drop the
association with the given key (the first one, which is the only one since
keys are unique). -/
def eraseCtx (id : Tid) : List (Tid × StatsCtx) → List (Tid × StatsCtx)
  | [] => []
  | (i, c) :: rest => if i = id then rest else (i, c) :: eraseCtx id rest

/-- Registration, `StatsAggregator::RegisterContext`: under the lock, assert the id is
not yet present (`PL_ASSERT(backend_stats_.find(id_) == backend_stats_.end())`),
increment `thread_number_` and insert the association.  The fatal
assertion is modelled by returning `none` when the id is present. -/
def registerContext (s : AggState) (id : Tid) (ctx : StatsCtx) : Option AggState :=
  if lookupCtx id s.backendStats = none then
    some { s with
           threadNumber := s.threadNumber + 1,
           backendStats := (id, ctx) :: s.backendStats }
  else
    none

/-- Unregistration, `StatsAggregator::UnregisterContext`: under the lock, if the id is
present, fold the context into `stats_history_`, erase the association and
decrement `thread_number_`; otherwise only log and leave the state as is. -/
def unregisterContext (s : AggState) (id : Tid) : AggState :=
  match lookupCtx id s.backendStats with
  | some ctx =>
      { s with
        statsHistory := s.statsHistory.aggr ctx,
        backendStats := eraseCtx id s.backendStats,
        threadNumber := s.threadNumber - 1 }
  | none => s

/-- The per-cycle accumulator build in `StatsAggregator::Aggregate`
(lines 76–85): `aggregated_stats_.Reset()`, then fold every registered
context whose id differs from the aggregator thread's own id, then fold
`stats_history_`. -/
def aggregatedStats (s : AggState) (selfId : Tid) : StatsCtx :=
  (s.backendStats.foldl
    (fun a p => if p.1 ≠ selfId then a.aggr p.2 else a) StatsCtx.zero).aggr
    s.statsHistory

/-- The persistent state of the throughput computation in
`Aggregate` / `RunAggregator`: `interval_cnt`, `total_prev_txn_committed_`
and `weighted_avg_throughput`. -/
structure TpState where
  intervalCnt : Int
  totalPrevTxnCommitted : Int
  weightedAvgThroughput : Rat
  deriving Repr, DecidableEq

/-- The initial throughput state (`interval_cnt = 0` in `RunAggregator`,
`total_prev_txn_committed_(0)` in the constructor,
`weighted_avg_throughput = 0.0`). -/
def TpState.init : TpState := ⟨0, 0, 0⟩

/-- The smoothing factor set in `RunAggregator`: `double alpha = 0.4`. -/
def alphaDefault : Rat := 0.4

/-- Line 95 of the source, as written:
`throughput_ = (double)txns_committed_this_interval / 1000 * STATS_AGGREGATION_INTERVAL_MS`.
`intervalMs` stands for the compile-time constant
`STATS_AGGREGATION_INTERVAL_MS`. -/
def codeThroughput (delta : Int) (intervalMs : Rat) : Rat :=
  (delta : Rat) / 1000 * intervalMs

/-- Modelled from the spec (§4.3, the header defining the constant is not
part of the sources): `instant_throughput = delta / interval_duration`,
where the interval duration in seconds is the configured aggregation
interval `intervalMs / 1000`. -/
def specInstantThroughput (delta : Int) (intervalMs : Rat) : Rat :=
  (delta : Rat) / (intervalMs / 1000)

/-- One call of `StatsAggregator::Aggregate` (lines 68–123), restricted to
its observable computation: increment `interval_cnt`, rebuild the
accumulator, read the cumulative committed count off the accumulator's
database metrics, compute the interval delta and the throughput figures,
update the weighted average (first cycle: take the instantaneous value;
later cycles: exponential smoothing), and persist
`total_prev_txn_committed_ := current_txns_committed` unconditionally.
Returns the accumulator together with the new throughput state. -/
def aggregate (s : AggState) (selfId : Tid) (intervalMs : Rat) (alpha : Rat)
    (t : TpState) : StatsCtx × TpState :=
  let intervalCnt := t.intervalCnt + 1
  let acc := aggregatedStats s selfId
  let currentTxnsCommitted := acc.txnCommitted
  let txnsCommittedThisInterval := currentTxnsCommitted - t.totalPrevTxnCommitted
  let throughput := codeThroughput txnsCommittedThisInterval intervalMs
  let weightedAvgThroughput :=
    if intervalCnt = 1 then throughput
    else alpha * throughput + (1 - alpha) * t.weightedAvgThroughput
  (acc,
   { intervalCnt := intervalCnt,
     totalPrevTxnCommitted := currentTxnsCommitted,
     weightedAvgThroughput := weightedAvgThroughput })

/-- Outcome of `exec_finished_.wait_for(...)` in the scheduler loop:
either the interval elapsed (`cv_status::timeout`) or the shutdown signal
arrived (`cv_status::no_timeout`). -/
inductive WaitResult where
  | timeout
  | signaled
  deriving Repr, DecidableEq

/-- One wake-up of the scheduler loop: the outcome of the timed wait and
the value of `is_aggregating_` read by the loop condition. -/
structure WakeEv where
  res : WaitResult
  aggregating : Bool
  deriving Repr, DecidableEq

/-- The `RunAggregator` loop (lines 272–276) over a finite schedule of
wake-ups: as long as the wait timed out and `is_aggregating_` still holds,
one `Aggregate` cycle runs and the loop repeats; otherwise it exits.
Returns the number of `Aggregate` cycles performed. -/
def cyclesRun : List WakeEv → Nat
  | [] => 0
  | e :: rest =>
      if e.res = WaitResult.timeout ∧ e.aggregating then cyclesRun rest + 1 else 0

/-- Lifecycle state of the aggregator relevant to
`ShutdownAggregator`: the `is_aggregating_` flag, the number of
`exec_finished_.notify_one()` calls made so far, and whether
`aggregator_thread_.join()` has been executed. -/
structure SchedState where
  isAggregating : Bool
  notifications : Int
  joined : Bool
  deriving Repr, DecidableEq

/-- Shutdown, `StatsAggregator::ShutdownAggregator` (lines 58–66): when
`is_aggregating_` is set, clear it, notify the condition variable once and
join the aggregator thread; otherwise do nothing. -/
def shutdownAggregator (s : SchedState) : SchedState :=
  if s.isAggregating then
    { isAggregating := false, notifications := s.notifications + 1, joined := true }
  else
    s

/-- Events of a worker-lifecycle trace: a worker registers a freshly
constructed context, unregisters, or applies increments to the counters of
its own (registered) context. -/
inductive Ev where
  | reg (id : Tid)
  | unreg (id : Tid)
  | incr (id : Tid) (dc da : Int)
  deriving Repr, DecidableEq

/-- A worker increments its own registered context in place. Fails when
the id is not registered (a context is owned and mutated by its worker
only while registered). -/
def applyIncr (id : Tid) (dc da : Int) :
    List (Tid × StatsCtx) → Option (List (Tid × StatsCtx))
  | [] => none
  | (i, c) :: rest =>
      if i = id then
        some ((i, ⟨c.txnCommitted + dc, c.txnAborted + da⟩) :: rest)
      else
        (applyIncr id dc da rest).map (fun l => (i, c) :: l)

/-- One trace step: `reg` runs `RegisterContext` on a fresh context,
`unreg` runs `UnregisterContext`, `incr` mutates the worker's own
registered context. -/
def step (s : AggState) : Ev → Option AggState
  | Ev.reg id => registerContext s id StatsCtx.zero
  | Ev.unreg id => some (unregisterContext s id)
  | Ev.incr id dc da =>
      (applyIncr id dc da s.backendStats).map
        (fun l => { s with backendStats := l })

/-- Run a trace of events from a state. -/
def run (s : AggState) : List Ev → Option AggState
  | [] => some s
  | e :: rest =>
      match step s e with
      | some s2 => run s2 rest
      | none => none

/-- The lifetime total of increments ever applied by any worker in a
trace. -/
def lifetimeTotal : List Ev → Int
  | [] => 0
  | Ev.incr _ dc da :: rest => dc + da + lifetimeTotal rest
  | _ :: rest => lifetimeTotal rest

/-- Sum of the cumulative counters of all currently registered
contexts. -/
def liveTotal (l : List (Tid × StatsCtx)) : Int :=
  (l.map (fun p => p.2.total)).sum

/-- The conserved quantity of claim P2: retired history plus all live
snapshots. -/
def conserved (s : AggState) : Int :=
  s.statsHistory.total + liveTotal s.backendStats

/-- The merge described by the spec: the merge of `RetiredHistory` with
every currently-registered snapshot whose worker identity differs from
the aggregation thread's own identity. -/
def mergedSpec (s : AggState) (selfId : Tid) : StatsCtx :=
  ((s.backendStats.filter (fun p => p.1 ≠ selfId)).map Prod.snd).foldr
    StatsCtx.aggr s.statsHistory

/-- Sum of a list of contexts, used to relate the merge loop to the
filtered registry. -/
def ctxSum (l : List StatsCtx) : StatsCtx :=
  l.foldr StatsCtx.aggr StatsCtx.zero

/-- Contribution of a single trace event to the lifetime total. -/
def evDelta : Ev → Int
  | Ev.incr _ dc da => dc + da
  | _ => 0

end Peloton

namespace Peloton

theorem StatsCtx.aggr_zero (a : StatsCtx) : a.aggr StatsCtx.zero = a := by
  ext <;> simp [StatsCtx.aggr, StatsCtx.zero]

theorem StatsCtx.zero_aggr (a : StatsCtx) : StatsCtx.zero.aggr a = a := by
  ext <;> simp [StatsCtx.aggr, StatsCtx.zero]

theorem StatsCtx.aggr_assoc (a b c : StatsCtx) :
    (a.aggr b).aggr c = a.aggr (b.aggr c) := by
  ext <;> simp [StatsCtx.aggr] <;> ring

/-- C5: when the id is not yet present, `RegisterContext` passes its
assertion (the fatal branch is unreachable, the result is `some`),
inserts the association and increments the live-thread count. -/
theorem registerFreshId (s : AggState) (id : Tid) (ctx : StatsCtx)
    (h : lookupCtx id s.backendStats = none) :
    registerContext s id ctx =
      some { s with
             threadNumber := s.threadNumber + 1,
             backendStats := (id, ctx) :: s.backendStats } := by
  simp [registerContext, h]

theorem registerFreshId_witness :
    registerContext ⟨[(1, ⟨3, 1⟩)], StatsCtx.zero, 1⟩ 2 ⟨0, 0⟩ =
      some ⟨[(2, ⟨0, 0⟩), (1, ⟨3, 1⟩)], StatsCtx.zero, 2⟩ := by
  have h := registerFreshId ⟨[(1, ⟨3, 1⟩)], StatsCtx.zero, 1⟩ 2 ⟨0, 0⟩ (by decide)
  rw [h]
  decide

/-- C6: `UnregisterContext` on an absent id is a no-op leaving history,
registry and live count unchanged; on a present id it folds the context
into `stats_history_`, erases the association and decrements the count. -/
theorem unregisterCases (s : AggState) (id : Tid) :
    (lookupCtx id s.backendStats = none → unregisterContext s id = s) ∧
    (∀ ctx, lookupCtx id s.backendStats = some ctx →
      unregisterContext s id =
        { s with
          statsHistory := s.statsHistory.aggr ctx,
          backendStats := eraseCtx id s.backendStats,
          threadNumber := s.threadNumber - 1 }) := by
  constructor
  · intro h
    simp [unregisterContext, h]
  · intro ctx h
    simp [unregisterContext, h]

theorem unregisterCases_witness :
    unregisterContext ⟨[(1, ⟨3, 1⟩)], ⟨4, 0⟩, 1⟩ 9 = ⟨[(1, ⟨3, 1⟩)], ⟨4, 0⟩, 1⟩ ∧
    unregisterContext ⟨[(1, ⟨3, 1⟩)], ⟨4, 0⟩, 1⟩ 1 = ⟨[], ⟨7, 1⟩, 0⟩ := by
  constructor
  · exact (unregisterCases ⟨[(1, ⟨3, 1⟩)], ⟨4, 0⟩, 1⟩ 9).1 (by decide)
  · have h := (unregisterCases ⟨[(1, ⟨3, 1⟩)], ⟨4, 0⟩, 1⟩ 1).2 ⟨3, 1⟩ (by decide)
    rw [h]
    decide

/-- C8: `ShutdownAggregator` is idempotent: running it twice equals
running it once, running it on an already-stopped state changes nothing,
and a first call on a running state clears the flag and joins the
background thread. -/
theorem shutdownIdempotent (s : SchedState) :
    shutdownAggregator (shutdownAggregator s) = shutdownAggregator s ∧
    (s.isAggregating = false → shutdownAggregator s = s) ∧
    (s.isAggregating = true →
      (shutdownAggregator s).isAggregating = false ∧
      (shutdownAggregator s).joined = true) := by
  cases hb : s.isAggregating <;> simp [shutdownAggregator, hb]

theorem shutdownIdempotent_witness :
    shutdownAggregator (shutdownAggregator ⟨true, 0, false⟩) =
      shutdownAggregator ⟨true, 0, false⟩ ∧
    shutdownAggregator ⟨false, 5, true⟩ = ⟨false, 5, true⟩ ∧
    (shutdownAggregator ⟨true, 0, false⟩).joined = true :=
  ⟨(shutdownIdempotent ⟨true, 0, false⟩).1,
   (shutdownIdempotent ⟨false, 5, true⟩).2.1 rfl,
   ((shutdownIdempotent ⟨true, 0, false⟩).2.2 rfl).2⟩

/-- C9: every call of `Aggregate` stores the current cumulative committed
count (read off the freshly built accumulator) into
`total_prev_txn_committed_` unconditionally — the update does not depend
on the sign of the interval delta, so the next cycle's delta is always
taken against the most recently observed total. -/
theorem totalPrevPersisted (s : AggState) (selfId : Tid) (intervalMs alpha : Rat)
    (t : TpState) :
    (aggregate s selfId intervalMs alpha t).2.totalPrevTxnCommitted =
      (aggregatedStats s selfId).txnCommitted := rfl

/-- C7: in the `RunAggregator` loop, a wait that ends with the shutdown
signal exits the loop before any further `Aggregate` call: the cycles
performed on a schedule containing a signalled wake-up are exactly the
cycles performed on the prefix before it, whatever comes after. -/
theorem noCycleAfterSignal (ws1 : List WakeEv) (b : Bool) (ws2 : List WakeEv) :
    cyclesRun (ws1 ++ ⟨WaitResult.signaled, b⟩ :: ws2) = cyclesRun ws1 := by
  induction ws1 with
  | nil => simp [cyclesRun]
  | cons e rest ih =>
      simp only [List.cons_append, cyclesRun, List.append_eq, ih]

end Peloton

namespace Peloton

/-- C4: the weighted-average state machine of `Aggregate` with the
smoothing factor `alpha = 0.4` set in `RunAggregator`: on the first cycle
the weighted average is exactly the instantaneous throughput computed that
cycle; on every later cycle it is `alpha` times the instantaneous
throughput plus `1 - alpha` times the previous weighted average. -/
theorem ewmaStateMachine (s : AggState) (selfId : Tid) (intervalMs : Rat)
    (t : TpState) :
    alphaDefault = 2 / 5 ∧
    (aggregate s selfId intervalMs alphaDefault t).2.weightedAvgThroughput =
      (if t.intervalCnt = 0 then
        codeThroughput
          ((aggregatedStats s selfId).txnCommitted - t.totalPrevTxnCommitted)
          intervalMs
       else
        2 / 5 * codeThroughput
          ((aggregatedStats s selfId).txnCommitted - t.totalPrevTxnCommitted)
          intervalMs
        + 3 / 5 * t.weightedAvgThroughput) := by
  constructor
  · norm_num [alphaDefault]
  · by_cases h : t.intervalCnt = 0
    · simp [aggregate, h]
    · have hne : ¬(t.intervalCnt + 1 = 1) := by omega
      simp only [aggregate, if_neg hne, if_neg h]
      norm_num [alphaDefault]

theorem ctxSum_cons (c : StatsCtx) (l : List StatsCtx) :
    ctxSum (c :: l) = c.aggr (ctxSum l) := rfl

theorem foldlAggrFilter (selfId : Tid) (l : List (Tid × StatsCtx)) (acc : StatsCtx) :
    l.foldl (fun a p => if p.1 ≠ selfId then a.aggr p.2 else a) acc =
      acc.aggr (ctxSum ((l.filter (fun p => p.1 ≠ selfId)).map Prod.snd)) := by
  induction l generalizing acc with
  | nil => simp [ctxSum, StatsCtx.aggr_zero]
  | cons p rest ih =>
      simp only [List.foldl_cons]
      by_cases hp : p.1 ≠ selfId
      · rw [if_pos hp, ih, List.filter_cons_of_pos (by simpa using hp),
          List.map_cons, ctxSum_cons, StatsCtx.aggr_assoc]
      · rw [if_neg hp, ih, List.filter_cons_of_neg (by simpa using hp)]

theorem ctxSum_aggr (l : List StatsCtx) (h : StatsCtx) :
    (ctxSum l).aggr h = l.foldr StatsCtx.aggr h := by
  induction l with
  | nil => simp [ctxSum, StatsCtx.zero_aggr]
  | cons c rest ih =>
      simp only [ctxSum, List.foldr_cons] at *
      rw [StatsCtx.aggr_assoc, ih]

/-- C2: the accumulator built by `Aggregate` equals the merge of
`RetiredHistory` with every currently-registered snapshot whose worker
identity differs from the aggregation thread's own identity — in
particular, whatever the registry contains, the entry keyed by the
aggregator's own identity never contributes to the merged metrics. -/
theorem aggregatedMatchesSpecMerge (s : AggState) (selfId : Tid) :
    aggregatedStats s selfId = mergedSpec s selfId := by
  unfold aggregatedStats mergedSpec
  rw [foldlAggrFilter, StatsCtx.zero_aggr, ctxSum_aggr]

/-- C3: the instantaneous-throughput formula on line 95 of the source
multiplies the interval delta by `STATS_AGGREGATION_INTERVAL_MS / 1000`
instead of dividing by it.  With a 2000 ms interval and 10 transactions
committed during one interval, the code reports 20 while
`delta / interval_duration` is 5 transactions per second; the full
`Aggregate` call on a matching first-cycle state reports the same 20. -/
theorem throughputFormulaDiverges :
    codeThroughput 10 2000 = 20 ∧
    specInstantThroughput 10 2000 = 5 ∧
    codeThroughput 10 2000 ≠ specInstantThroughput 10 2000 ∧
    (aggregate ⟨[(1, ⟨10, 0⟩)], StatsCtx.zero, 1⟩ 0 2000 alphaDefault
        TpState.init).2.weightedAvgThroughput = 20 := by
  refine ⟨by norm_num [codeThroughput], by norm_num [specInstantThroughput],
    by norm_num [codeThroughput, specInstantThroughput], ?_⟩
  norm_num [aggregate, aggregatedStats, codeThroughput, TpState.init,
    StatsCtx.zero, StatsCtx.aggr]

end Peloton

namespace Peloton

theorem liveTotal_cons (p : Tid × StatsCtx) (l : List (Tid × StatsCtx)) :
    liveTotal (p :: l) = p.2.total + liveTotal l := by
  simp [liveTotal]

theorem liveTotal_lookup {id : Tid} {c : StatsCtx} :
    ∀ {l : List (Tid × StatsCtx)}, lookupCtx id l = some c →
      liveTotal l = c.total + liveTotal (eraseCtx id l)
  | [], h => by simp [lookupCtx] at h
  | (i, c0) :: rest, h => by
      by_cases hp : i = id
      · simp only [lookupCtx, if_pos hp, Option.some.injEq] at h
        subst h
        simp [eraseCtx, hp, liveTotal_cons]
      · simp only [lookupCtx, if_neg hp] at h
        simp only [eraseCtx, if_neg hp, liveTotal_cons, liveTotal_lookup h]
        ring

theorem applyIncr_liveTotal {id : Tid} {dc da : Int} :
    ∀ {l l2 : List (Tid × StatsCtx)}, applyIncr id dc da l = some l2 →
      liveTotal l2 = liveTotal l + dc + da
  | [], _, h => by simp [applyIncr] at h
  | (i, c) :: rest, l2, h => by
      by_cases hp : i = id
      · simp only [applyIncr, if_pos hp, Option.some.injEq] at h
        subst h
        simp only [liveTotal_cons, StatsCtx.total]
        ring
      · simp only [applyIncr, if_neg hp, Option.map_eq_some'] at h
        obtain ⟨l3, h3, rfl⟩ := h
        simp only [liveTotal_cons, applyIncr_liveTotal h3]
        ring

theorem lifetimeTotal_cons (e : Ev) (rest : List Ev) :
    lifetimeTotal (e :: rest) = evDelta e + lifetimeTotal rest := by
  cases e <;> simp [lifetimeTotal, evDelta]

theorem step_conserved {s s2 : AggState} {e : Ev} (h : step s e = some s2) :
    conserved s2 = conserved s + evDelta e := by
  cases e with
  | reg id =>
      simp only [step, registerContext] at h
      split at h
      · injection h with h2
        subst h2
        simp [conserved, evDelta, liveTotal_cons, StatsCtx.total, StatsCtx.zero]
      · exact absurd h (by simp)
  | unreg id =>
      simp only [step, Option.some.injEq] at h
      subst h
      cases hl : lookupCtx id s.backendStats with
      | none => simp [unregisterContext, hl, evDelta]
      | some c =>
          simp only [unregisterContext, hl, conserved, evDelta,
            StatsCtx.total, StatsCtx.aggr, liveTotal_lookup hl]
          ring
  | incr id dc da =>
      simp only [step, Option.map_eq_some'] at h
      obtain ⟨l2, h2, rfl⟩ := h
      simp only [conserved, evDelta, applyIncr_liveTotal h2]
      ring

theorem run_conserved :
    ∀ (evs : List Ev) (s s2 : AggState), run s evs = some s2 →
      conserved s2 = conserved s + lifetimeTotal evs
  | [], s, s2, h => by
      simp only [run, Option.some.injEq] at h
      subst h
      simp [lifetimeTotal]
  | e :: rest, s, s2, h => by
      simp only [run] at h
      cases hstep : step s e with
      | none => rw [hstep] at h; simp at h
      | some s1 =>
          rw [hstep] at h
          rw [run_conserved rest s1 s2 h, step_conserved hstep, lifetimeTotal_cons]
          ring

/-- C1: along any worker-lifecycle trace executed from the initial state,
the sum of the retired-history counters plus the cumulative counters of
all currently-registered contexts equals the lifetime total of increments
ever applied by any worker; in particular the fold performed by
`UnregisterContext` neither double-counts nor drops any contribution. -/
theorem conservationInvariant (evs : List Ev) (s : AggState)
    (h : run AggState.init evs = some s) :
    conserved s = lifetimeTotal evs := by
  have h2 := run_conserved evs AggState.init s h
  simpa [conserved, AggState.init, liveTotal, StatsCtx.zero, StatsCtx.total] using h2

theorem conservationInvariant_witness :
    run AggState.init
      [Ev.reg 1, Ev.incr 1 5 2, Ev.reg 2, Ev.incr 2 7 0, Ev.unreg 1, Ev.incr 2 3 0] =
      some ⟨[(2, ⟨10, 0⟩)], ⟨5, 2⟩, 1⟩ ∧
    conserved ⟨[(2, ⟨10, 0⟩)], ⟨5, 2⟩, 1⟩ =
      lifetimeTotal
        [Ev.reg 1, Ev.incr 1 5 2, Ev.reg 2, Ev.incr 2 7 0, Ev.unreg 1, Ev.incr 2 3 0] :=
  ⟨by decide, conservationInvariant _ _ (by decide)⟩

theorem lookup_erase_length {id : Tid} {c : StatsCtx} :
    ∀ (l : List (Tid × StatsCtx)), lookupCtx id l = some c →
      l.length = (eraseCtx id l).length + 1
  | [], h => by simp [lookupCtx] at h
  | (i, c0) :: rest, h => by
      by_cases hp : i = id
      · simp [eraseCtx, hp]
      · simp only [lookupCtx, if_neg hp] at h
        simp [eraseCtx, hp, lookup_erase_length rest h]

/-- C10: the live-thread counter equals the number of registry entries,
and both registration (under its fresh-id precondition) and
unregistration (on a present or an absent id) preserve this equality. -/
theorem liveCountMatchesRegistry (s : AggState)
    (h : s.threadNumber = (s.backendStats.length : Int)) :
    (∀ id ctx s2, registerContext s id ctx = some s2 →
      s2.threadNumber = (s2.backendStats.length : Int)) ∧
    (∀ id, (unregisterContext s id).threadNumber =
      ((unregisterContext s id).backendStats.length : Int)) := by
  constructor
  · intro id ctx s2 hreg
    simp only [registerContext] at hreg
    split at hreg
    · injection hreg with h2
      subst h2
      simp only [h, List.length_cons]
      push_cast
      ring
    · exact absurd hreg (by simp)
  · intro id
    cases hl : lookupCtx id s.backendStats with
    | none => simp [unregisterContext, hl, h]
    | some c =>
        have hlen := lookup_erase_length s.backendStats hl
        simp only [unregisterContext, hl]
        rw [h, hlen]
        push_cast
        ring

theorem liveCountMatchesRegistry_witness :
    (⟨[(3, ⟨0, 0⟩), (1, ⟨2, 3⟩)], StatsCtx.zero, 2⟩ : AggState).threadNumber =
      ((⟨[(3, ⟨0, 0⟩), (1, ⟨2, 3⟩)], StatsCtx.zero, 2⟩ : AggState).backendStats.length : Int) ∧
    (unregisterContext ⟨[(1, ⟨2, 3⟩)], StatsCtx.zero, 1⟩ 1).threadNumber =
      ((unregisterContext ⟨[(1, ⟨2, 3⟩)], StatsCtx.zero, 1⟩ 1).backendStats.length : Int) :=
  ⟨(liveCountMatchesRegistry ⟨[(1, ⟨2, 3⟩)], StatsCtx.zero, 1⟩ (by decide)).1
      3 ⟨0, 0⟩ _ (by decide),
   (liveCountMatchesRegistry ⟨[(1, ⟨2, 3⟩)], StatsCtx.zero, 1⟩ (by decide)).2 1⟩

end Peloton
